import Mathlib

/-
Verification of the risk-dashboard weekly automation scripts.

The development shallowly embeds the report parser and the two document
patchers of `weekly_automation.py` (together with the parser of
`weekly_automation_manual.py` and the dashboard patcher of
`weekly_automation_with_fetch.py`) as total Lean functions over `List Char`,
the code-point sequence model of a Python `str`.

Modelling conventions, fixed once here:

* Each Python regular expression of the source is embedded by a bespoke
  scanning function that denotes exactly that pattern under CPython `re`
  semantics: leftmost match, lazy quantifiers stopping at the first
  position where the continuation succeeds, greedy quantifiers with
  backtracking, `re.DOTALL` and `re.IGNORECASE` as flagged at each call
  site.  Where a greedy run is followed by a literal starting with a
  character disjoint from the run's class, backtracking cannot shorten the
  run, and the scanner takes the maximal run directly.
* The character classes `\w`, `\d`, `\s` and case folding are embedded at
  their ASCII cores (Python defaults to full Unicode tables); no input in
  any statement below leaves ASCII plus the report glyphs.
* `datetime.now()` is an ambient read in the source; it is embedded as an
  explicit string parameter of the patch functions, one per strftime
  format used.
* Replacement templates are parsed by CPython before any match is
  attempted (`re/_parser.py`, `parse_template`), and the parse depends on
  the characters the f-string interpolates directly after a group
  reference: a digit extends `\k` to a two-digit group reference (which
  raises `re.error: invalid group reference` whenever its index exceeds
  the pattern's group count — every pattern below has at most four
  groups), unless the first two following characters are both octal
  digits, in which case the three digits form an octal character escape
  that consumes the group reference.  The function `refPieces` embeds this
  rule; a patcher whose templates can be rejected is embedded as an
  `Option`-valued function, `none` denoting the raised `re.error` (the
  in-memory buffer is then discarded, so the order of the raise among the
  substitutions is unobservable).  Interpolated values in all statements
  below contain no backslash, so template parsing inside a value is plain
  insertion.
-/

set_option maxRecDepth 20000

/-! ## Character helpers (ASCII cores of Python character classes) -/

/-- ASCII core of the Python whitespace class `\s`. -/
def pySpace (c : Char) : Bool :=
  c == ' ' || c == '\t' || c == '\n' || c == '\r' || c == '\x0b' || c == '\x0c'

/-- ASCII lowering, the core of `str.lower` and of `re.IGNORECASE` folding. -/
def pyLower (c : Char) : Char :=
  if 'A' ≤ c && c ≤ 'Z' then Char.ofNat (c.toNat + 32) else c

/-- ASCII raising, the core of `str.upper`. -/
def pyUpper (c : Char) : Char :=
  if 'a' ≤ c && c ≤ 'z' then Char.ofNat (c.toNat - 32) else c

/-- ASCII core of the Python word class `\w`. -/
def wordChar (c : Char) : Bool := c.isAlphanum || c == '_'

/-- Membership in the class `[A-Z]` (this class is ASCII even in Python). -/
def isUpperAZ (c : Char) : Bool := 'A' ≤ c && c ≤ 'Z'

/-- Python `str.strip()`: remove leading and trailing whitespace. -/
def pyStrip (l : List Char) : List Char :=
  ((l.dropWhile pySpace).reverse.dropWhile pySpace).reverse

/-- Case-insensitive literal prefix test, the `re.IGNORECASE` match of a
literal pattern fragment against the head of the remaining text. -/
def ciStartsWith : List Char → List Char → Bool
  | [], _ => true
  | _ :: _, [] => false
  | p :: ps, c :: cs => pyLower p == pyLower c && ciStartsWith ps cs

/-- Case-insensitive containment: some suffix starts with the pattern. -/
def ciContainsB (pat : List Char) : List Char → Bool
  | [] => ciStartsWith pat []
  | c :: cs => ciStartsWith pat (c :: cs) || ciContainsB pat cs

/-- Decimal rendering of a natural number, Python `str(len(...))`. -/
def natStr (n : Nat) : List Char := (Nat.repr n).data

/-! ## The bullet scan

`re.findall(r'•\s*(.+)', text)` (no flags): all non-overlapping matches,
each capture running from the first non-whitespace character after the
marker to the end of that line.  `\s*` crosses newlines; when the marker is
followed by whitespace only up to the end of the text, backtracking leaves
`.+` matching just the last whitespace character that is not a newline. -/

/-- Negated newline test, the class of `.` without `re.DOTALL`. -/
def notNl (c : Char) : Bool := c != '\n'

/-- Worker for the bullet scan.  The first argument is recursion fuel: one
unit is spent per character position tried, so any fuel at least the length
of the text is equivalent (`findBulletsAux_irrel`); the fuel only makes the
recursion structural so that the kernel can evaluate the scan. -/
def findBulletsAux : Nat → List Char → List (List Char)
  | 0, _ => []
  | _ + 1, [] => []
  | fuel + 1, c :: cs =>
    if c = '•' then
      if (cs.dropWhile pySpace).isEmpty then
        -- the marker is followed by whitespace to the end of the text
        match (cs.filter notNl).getLast? with
        | some ch => [[ch]]
        | none => []
      else
        (cs.dropWhile pySpace).takeWhile notNl ::
          findBulletsAux fuel ((cs.dropWhile pySpace).dropWhile notNl)
    else findBulletsAux fuel cs

def findBullets (l : List Char) : List (List Char) := findBulletsAux l.length l

/-! ## Section extraction

Each section regex has the shape `HEADER.*?\n(.*?)(?=ENDERS|$)` with
`re.DOTALL | re.IGNORECASE`: the first case-insensitive occurrence of the
header that has a newline somewhere after it starts the match, `.*?\n` runs
to that first newline, and the lazy group stops at the first position where
one of the ender literals matches case-insensitively, or at the end of the
text, or just before a final newline (the `$` of a non-MULTILINE pattern). -/

/-- Drop everything up to and including the first newline; `none` when the
text has no newline (the enclosing pattern then fails at this start). -/
def dropThroughNl (l : List Char) : Option (List Char) :=
  match l.dropWhile notNl with
  | _ :: t => some t
  | [] => none

/-- Leftmost case-insensitive header occurrence followed by a newline;
returns the text after that newline. -/
def scanAfterHeaderNl (header : List Char) : List Char → Option (List Char)
  | [] => none
  | c :: cs =>
    if ciStartsWith header (c :: cs) then
      match dropThroughNl ((c :: cs).drop header.length) with
      | some rest => some rest
      | none => scanAfterHeaderNl header cs
    else scanAfterHeaderNl header cs

/-- Lazy capture up to the first ender occurrence, the end of the text, or
the position just before a final newline. -/
def takeUntilHeadersOrEnd (enders : List (List Char)) : List Char → List Char
  | [] => []
  | c :: cs =>
    if enders.any (fun p => ciStartsWith p (c :: cs)) then []
    else if c = '\n' && cs.isEmpty then []
    else c :: takeUntilHeadersOrEnd enders cs

/-- Span of one section: text between the header line and the next ender. -/
def sectionSpan (header : List Char) (enders : List (List Char))
    (s : List Char) : Option (List Char) :=
  (scanAfterHeaderNl header s).map (takeUntilHeadersOrEnd enders)

/-! ## Field extraction for one P0 bullet -/

/-- First match of `re.search(r'([A-Z]+-\d+)', bullet)`: scanning left to
right, a maximal run of `[A-Z]` immediately followed by a hyphen and at
least one digit; the empty list when the bullet has no such match. -/
def extractTicket : List Char → List Char
  | [] => []
  | c :: cs =>
    if isUpperAZ c
        && ((c :: cs).dropWhile isUpperAZ).headI == '-'
        && !((((c :: cs).dropWhile isUpperAZ).drop 1).takeWhile Char.isDigit).isEmpty then
      (c :: cs).takeWhile isUpperAZ
        ++ '-' :: (((c :: cs).dropWhile isUpperAZ).drop 1).takeWhile Char.isDigit
    else extractTicket cs

/-- Python `bullet.split('—', 1)`: split at the first em-dash when present. -/
def splitEm : List Char → Option (List Char × List Char)
  | [] => none
  | c :: cs =>
    if c = '—' then some ([], cs)
    else (splitEm cs).map (fun pr => (c :: pr.1, pr.2))

/-- Structured record for one P0 bullet, the dict appended to
`data['p0Items']`. -/
structure P0Item where
  ticket : List Char
  title : List Char
  description : List Char
  full_text : List Char
deriving DecidableEq

/-- The per-bullet body of the P0 loop in `parse_claude_response`. -/
def mkP0Item (bullet : List Char) : P0Item :=
  match splitEm bullet with
  | some (pre, post) =>
    { ticket := extractTicket bullet
      title := pyStrip pre
      description := pyStrip post
      full_text := pyStrip bullet }
  | none =>
    { ticket := extractTicket bullet
      title := pyStrip bullet
      description := []
      full_text := pyStrip bullet }

/-- The structured result of `parse_claude_response`. -/
structure Report where
  riskLevel : List Char
  summary : List (List Char)
  p0Items : List P0Item
  otherChanges : List (List Char)
  zeroRisk : List Char
deriving DecidableEq

/-! ## Risk level and zero-risk scanners -/

/-- Leftmost match of `r'Overall Release Risk Level:\s*(\w+(?:-\w+)?)'`
under `re.IGNORECASE`; the capture is the maximal word run after the label
and optional whitespace, with at most one hyphenated continuation. -/
def scanRiskLevel (label : List Char) : List Char → Option (List Char)
  | [] => none
  | c :: cs =>
    if ciStartsWith label (c :: cs) then
      let rest := ((c :: cs).drop label.length).dropWhile pySpace
      let w := rest.takeWhile wordChar
      if w.isEmpty then scanRiskLevel label cs
      else
        match rest.dropWhile wordChar with
        | '-' :: r2 =>
          let w2 := r2.takeWhile wordChar
          if w2.isEmpty then some w else some (w ++ '-' :: w2)
        | _ => some w
    else scanRiskLevel label cs

/-- Leftmost position after the zero-risk header where a newline is directly
followed by a bullet marker with at least one further character; returns the
text after the marker.  This is the `.*?\n•` part of
`r'No Code Changes.*?\n•\s*(.+)'` under `re.DOTALL`. -/
def findNlBullet : List Char → Option (List Char)
  | '\n' :: '•' :: d :: rest => some (d :: rest)
  | _ :: cs => findNlBullet cs
  | [] => none

/-- Leftmost case-insensitive occurrence of the zero-risk header from which
`findNlBullet` succeeds. -/
def scanZero (label : List Char) : List Char → Option (List Char)
  | [] => none
  | c :: cs =>
    if ciStartsWith label (c :: cs) then
      match findNlBullet ((c :: cs).drop label.length) with
      | some after => some after
      | none => scanZero label cs
    else scanZero label cs

/-- The capture of `\s*(.+)` under `re.DOTALL` on the text after the
marker: greedy `.+` runs to the end of the text; when that text is
whitespace only, backtracking leaves `.+` matching just the last
character. -/
def zeroGroup (after : List Char) : List Char :=
  match after.dropWhile pySpace with
  | [] =>
    match after.getLast? with
    | some ch => [ch]
    | none => []
  | r => r

/-! ## The parser of weekly_automation.py -/

namespace weekly_automation

def risk_label : List Char := "Overall Release Risk Level:".data

def p0_header : List Char := "P0 —".data

def other_header : List Char := "Other Notable Changes".data

def zero_header : List Char := "No Code Changes".data

/-- Group 1 of the summary regex of `parse_claude_response`. -/
def summary_span (s : List Char) : Option (List Char) :=
  sectionSpan risk_label [p0_header] s

/-- Group 1 of the P0 regex of `parse_claude_response`. -/
def p0_span (s : List Char) : Option (List Char) :=
  sectionSpan p0_header [other_header, zero_header] s

/-- Group 1 of the other-changes regex of `parse_claude_response`. -/
def other_span (s : List Char) : Option (List Char) :=
  sectionSpan other_header [zero_header] s

/-- Bullets of an optional section span; an absent span contributes none. -/
def bulletsOf (sp : Option (List Char)) : List (List Char) :=
  match sp with
  | some t => findBullets t
  | none => []

/-- The parser `parse_claude_response` of `weekly_automation.py`: total on
every input, building the structured report with per-section defaults. -/
def parse_claude_response (s : List Char) : Report :=
  { riskLevel :=
      match scanRiskLevel risk_label s with
      | some w => w.map pyUpper
      | none => "MEDIUM".data
    summary := ((bulletsOf (summary_span s)).map pyStrip).filter (fun b => !b.isEmpty)
    p0Items := (bulletsOf (p0_span s)).map mkP0Item
    otherChanges := ((bulletsOf (other_span s)).map pyStrip).filter (fun b => !b.isEmpty)
    zeroRisk :=
      match scanZero zero_header s with
      | some after => pyStrip (zeroGroup after)
      | none => [] }

end weekly_automation

/-! ## The parser of weekly_automation_manual.py

The manual-URL variant repeats the same five regexes character for
character; its parser is embedded independently over the shared scanner
denotations. -/

namespace weekly_automation_manual

/-- The parser `parse_claude_response` of `weekly_automation_manual.py`. -/
def parse_claude_response (s : List Char) : Report :=
  { riskLevel :=
      match scanRiskLevel weekly_automation.risk_label s with
      | some w => w.map pyUpper
      | none => "MEDIUM".data
    summary := ((weekly_automation.bulletsOf (weekly_automation.summary_span s)).map pyStrip).filter
      (fun b => !b.isEmpty)
    p0Items := (weekly_automation.bulletsOf (weekly_automation.p0_span s)).map mkP0Item
    otherChanges := ((weekly_automation.bulletsOf (weekly_automation.other_span s)).map pyStrip).filter
      (fun b => !b.isEmpty)
    zeroRisk :=
      match scanZero weekly_automation.zero_header s with
      | some after => pyStrip (zeroGroup after)
      | none => [] }

end weekly_automation_manual

/-! ## Substitution machinery

`update_main_dashboard` and `create_report_page` transform a document
buffer by a fixed sequence of `re.sub` and `str.replace` calls.  Every
`re.sub` call below is embedded as a match attempt `TrySub` anchored at one
position — returning the rendered replacement and the text after the
match — driven either by `subFirst` (calls with `count=1`: leftmost match
only) or by `subAll` (calls without `count`: every non-overlapping match,
resuming after each). -/

abbrev TrySub := List Char → Option (List Char × List Char)

/-- Python `re.sub(pattern, repl, s, count=1)` over an anchored matcher:
replace the leftmost match, keep everything else verbatim. -/
def subFirst (t : TrySub) : List Char → List Char
  | [] =>
    match t [] with
    | some (r, rest) => r ++ rest
    | none => []
  | c :: cs =>
    match t (c :: cs) with
    | some (r, rest) => r ++ rest
    | none => c :: subFirst t cs

/-- Worker for `re.sub` without `count`.  Fuel as in `findBulletsAux`:
every anchored matcher below consumes at least one character per match, so
fuel `s.length` is enough and larger fuel is equivalent. -/
def subAllAux (t : TrySub) : Nat → List Char → List Char
  | 0, l => l
  | _ + 1, [] =>
    (match t [] with
     | some (r, rest) => r ++ rest
     | none => [])
  | fuel + 1, c :: cs =>
    match t (c :: cs) with
    | some (r, rest) => r ++ subAllAux t fuel rest
    | none => c :: subAllAux t fuel cs

/-- Python `re.sub(pattern, repl, s)` without `count`: replace every
non-overlapping match, scanning on after each replacement. -/
def subAll (t : TrySub) (l : List Char) : List Char := subAllAux t l.length l

/-- Worker for `str.replace`; fuel as in `subAllAux` (the literal patterns
used below are non-empty). -/
def replaceAllLitAux (pat repl : List Char) : Nat → List Char → List Char
  | 0, l => l
  | _ + 1, [] => []
  | fuel + 1, c :: cs =>
    if pat.isPrefixOf (c :: cs) then
      repl ++ replaceAllLitAux pat repl fuel ((c :: cs).drop pat.length)
    else c :: replaceAllLitAux pat repl fuel cs

/-- Python `str.replace(pat, repl)`: every non-overlapping occurrence of a
non-empty literal. -/
def replaceAllLit (pat repl l : List Char) : List Char :=
  replaceAllLitAux pat repl l.length l

/-- Match a literal pattern fragment at the head of the text. -/
def lit (pat : List Char) (s : List Char) : Option (List Char) :=
  if pat.isPrefixOf s then some (s.drop pat.length) else none

/-- Leftmost occurrence of a literal inside the text: the text before the
occurrence and the text after it.  This is a lazy `.*?LIT` step under
`re.DOTALL` when nothing after LIT constrains the stop position. -/
def splitFirstLit (pat : List Char) : List Char → Option (List Char × List Char)
  | [] => none
  | c :: cs =>
    if pat.isPrefixOf (c :: cs) then some ([], (c :: cs).drop pat.length)
    else
      match splitFirstLit pat cs with
      | some (p, r) => some (c :: p, r)
      | none => none

/-- Membership in the octal-digit set of the template parser. -/
def isOctalDigit (c : Char) : Bool := '0' ≤ c && c ≤ '7'

/-- CPython's replacement-template parse of the fragment `\k` ++ v, where
`k` is a single octal digit naming a real group (`k ≤ 3` in every call
below) and `v` is an interpolated value containing no backslash, running up
to the next backslash of the template or its end (`re/_parser.py`,
`parse_template`).  A non-digit head of `v` leaves the group reference
alone.  A digit head is consumed into a two-digit reference; if that digit
and the one after it are both octal digits, the three digits instead form
an octal character escape — the group reference is consumed into the
character and the group's text is *not* inserted; otherwise the two-digit
group index `10k + d` exceeds the pattern's group count and CPython raises
`re.error: invalid group reference`, embedded as `none`.  The result
`some (useGroup, text)` renders as the group-`k` capture (if `useGroup`)
followed by `text`.  For `k ≤ 3` the octal value is at most `0o377`, so
the out-of-range check of the parser never fires here. -/
def refPieces (k : Nat) (v : List Char) : Option (Bool × List Char) :=
  match v with
  | [] => some (true, [])
  | d1 :: rest =>
    if !d1.isDigit then some (true, v)
    else
      match rest with
      | d2 :: rest2 =>
        if isOctalDigit d1 && isOctalDigit d2 then
          some (false,
            Char.ofNat (64 * k + 8 * (d1.toNat - 48) + (d2.toNat - 48)) :: rest2)
        else none
      | [] => none

/-! ### Anchored matchers shared by the dashboard patchers -/

/-- The badge class token
`f'risk-{data["riskLevel"].lower().replace("-", "")}'`. -/
def riskClassOf (rl : List Char) : List Char :=
  "risk-".data ++ (rl.map pyLower).filter (fun c => c != '-')

/-- Pattern `(<span class="risk-level )risk-\w+(">)[^<]+(</span>)` of the
risk-badge substitution (`count=1`).  The maximal `\w+` and `[^<]+` runs
are forced: each is followed by a literal whose first character the run's
class excludes, so backtracking cannot shorten them.  The groups carry no
variable text, so the rendered replacement is match-independent and passed
in as `newText` (built through `refPieces` by `weekly_automation` and as a
rebuilt f-string by the ungrouped fetch variant). -/
def tryRiskBadge (newText : List Char) (s : List Char) :
    Option (List Char × List Char) :=
  (lit "<span class=\"risk-level ".data s).bind fun s1 =>
  (lit "risk-".data s1).bind fun s2 =>
  if (s2.takeWhile wordChar).isEmpty then none else
  (lit "\">".data (s2.dropWhile wordChar)).bind fun s3 =>
  if (s3.takeWhile (fun c => c != '<')).isEmpty then none else
  (lit "</span>".data (s3.dropWhile (fun c => c != '<'))).bind fun s4 =>
  some (newText, s4)

/-- Membership in the class `[\d.]`. -/
def digitDot (c : Char) : Bool := c.isDigit || c == '.'

/-- Membership in the class `[\d-]`. -/
def digitDash (c : Char) : Bool := c.isDigit || c == '-'

/-- Pattern `(<strong>Android RC )[\d.]+(</strong> • Week of )[^<]+` of the
version-line substitution (`count=1`); the groups are fixed literals, so
the rendered replacement is match-independent and passed in as
`newText`. -/
def tryVersionLine (newText : List Char) (s : List Char) :
    Option (List Char × List Char) :=
  (lit "<strong>Android RC ".data s).bind fun s1 =>
  if (s1.takeWhile digitDot).isEmpty then none else
  (lit "</strong> • Week of ".data (s1.dropWhile digitDot)).bind fun s2 =>
  if (s2.takeWhile (fun c => c != '<')).isEmpty then none else
  some (newText, s2.dropWhile (fun c => c != '<'))

/-- Pattern `(<div class="stat-mini-value" style="color: COLOR;">)\d+`
`(</div>\s*<div class="stat-mini-label">LABEL)` of `weekly_automation.py`
with replacement `\1COUNT\2` (`count=1`).  `pre` is the rendered `\1COUNT`
part (through `refPieces`, since COUNT is a digit string); group 2
restores the captured whitespace run. -/
def tryStatCount (color label pre : List Char) (s : List Char) :
    Option (List Char × List Char) :=
  (lit ("<div class=\"stat-mini-value\" style=\"color: ".data ++ color ++ ";\">".data) s).bind fun s1 =>
  if (s1.takeWhile Char.isDigit).isEmpty then none else
  (lit "</div>".data (s1.dropWhile Char.isDigit)).bind fun s2 =>
  (lit ("<div class=\"stat-mini-label\">".data ++ label) (s2.dropWhile pySpace)).bind fun s3 =>
  some (pre ++ "</div>".data ++ s2.takeWhile pySpace
      ++ "<div class=\"stat-mini-label\">".data ++ label, s3)

/-- The same counter match in `weekly_automation_with_fetch.py`, whose
rebuilt replacement hard-codes the whitespace as a newline and 24 spaces. -/
def tryStatCountFetch (color label count : List Char) (s : List Char) :
    Option (List Char × List Char) :=
  (lit ("<div class=\"stat-mini-value\" style=\"color: ".data ++ color ++ ";\">".data) s).bind fun s1 =>
  if (s1.takeWhile Char.isDigit).isEmpty then none else
  (lit "</div>".data (s1.dropWhile Char.isDigit)).bind fun s2 =>
  (lit ("<div class=\"stat-mini-label\">".data ++ label) (s2.dropWhile pySpace)).bind fun s3 =>
  some ("<div class=\"stat-mini-value\" style=\"color: ".data ++ color ++ ";\">".data
      ++ count ++ "</div>\n                        <div class=\"stat-mini-label\">".data
      ++ label, s3)

def criticalDiv : List Char := "<div class=\"risk-item critical\">".data

/-- Scan for the end of group 1 of the top-3 pattern of
`weekly_automation.py`: the lazy `.*?</div>\s*` must stop at the first
`</div>` occurrence whose following maximal whitespace is directly followed
by the critical-item literal, because the repetition group demands that
literal next.  Returns the text skipped by `.*?`, the whitespace run, and
the rest starting at the literal. -/
def scanDivWsCritical : List Char → Option (List Char × List Char × List Char)
  | [] => none
  | c :: cs =>
    if "</div>".data.isPrefixOf (c :: cs) &&
        criticalDiv.isPrefixOf (((c :: cs).drop 6).dropWhile pySpace) then
      some ([], ((c :: cs).drop 6).takeWhile pySpace, ((c :: cs).drop 6).dropWhile pySpace)
    else
      match scanDivWsCritical cs with
      | some (b, w, r) => some (c :: b, w, r)
      | none => none

/-- One repetition of `(?:<div class="risk-item critical">.*?</div>\s*)`
under `re.DOTALL`: nothing follows the repetition in the pattern, so the
lazy `.*?` stops at the first `</div>` and `\s*` takes the maximal run. -/
def parseCriticalRep (s : List Char) : Option (List Char × List Char) :=
  (lit criticalDiv s).bind fun s1 =>
  (splitFirstLit "</div>".data s1).bind fun pr =>
  some (criticalDiv ++ pr.1 ++ "</div>".data ++ pr.2.takeWhile pySpace,
    pr.2.dropWhile pySpace)

/-- Pattern `(<div style="margin-bottom: 8px;">.*?</div>\s*)` followed by
`((?:<div class="risk-item critical">.*?</div>\s*){1,3})` under `re.DOTALL`
with replacement `\1FRAG\n                ` (`count=1`): between one and
three existing critical blocks are consumed greedily as group 2 and
replaced.  The rendered template is passed as its `refPieces` outcome:
group 1's capture (when `useG1`) followed by `lit1` (the fragment and the
trailing newline-and-spaces literal). -/
def tryTop3 (useG1 : Bool) (lit1 : List Char) (s : List Char) :
    Option (List Char × List Char) :=
  (lit "<div style=\"margin-bottom: 8px;\">".data s).bind fun s1 =>
  (scanDivWsCritical s1).bind fun bwr =>
  (parseCriticalRep bwr.2.2).bind fun r1 =>
  some ((if useG1 then
      "<div style=\"margin-bottom: 8px;\">".data ++ bwr.1 ++ "</div>".data ++ bwr.2.1
    else []) ++ lit1,
    match parseCriticalRep r1.2 with
    | some ra =>
      (match parseCriticalRep ra.2 with
       | some rb => rb.2
       | none => ra.2)
    | none => r1.2)

/-- Pattern `(<a href="reports/)[\d-]+(\.html" class="view-full-report">)`
of the report-link substitution (`count=1`); fixed-literal groups, so the
rendered replacement is passed in as `newText`. -/
def tryReportLink (newText : List Char) (s : List Char) :
    Option (List Char × List Char) :=
  (lit "<a href=\"reports/".data s).bind fun s1 =>
  if (s1.takeWhile digitDash).isEmpty then none else
  (lit ".html\" class=\"view-full-report\">".data (s1.dropWhile digitDash)).bind fun s2 =>
  some (newText, s2)

/-- Pattern `(<span class="last-updated">Last Updated:</span> )[^•]+` of
the footer-timestamp substitution (no `count`, so every match in the
buffer is replaced); fixed-literal group, rendered replacement passed in
as `newText`. -/
def tryLastUpdated (newText : List Char) (s : List Char) :
    Option (List Char × List Char) :=
  (lit "<span class=\"last-updated\">Last Updated:</span> ".data s).bind fun s1 =>
  if (s1.takeWhile (fun c => c != '•')).isEmpty then none else
  some (newText, s1.dropWhile (fun c => c != '•'))

/-- One block of the dashboard top-3 fragment of `weekly_automation.py`
(the `top_3_html` loop body, transcribed with its exact indentation). -/
def top3ItemFrag (it : P0Item) : List Char :=
  "\n                <div class=\"risk-item critical\">\n                    <div class=\"risk-item-title\">".data
  ++ it.title
  ++ "</div>\n                    <div class=\"risk-item-description\">".data
  ++ (if it.description.isEmpty then it.full_text else it.description)
  ++ "</div>\n                </div>\n                ".data

/-- The dashboard top-3 fragment: the first three P0 items rendered in
order (`data['p0Items'][:3]`). -/
def top3Html (items : List P0Item) : List Char :=
  ((items.take 3).map top3ItemFrag).flatten

/-! ### Anchored matchers of create_report_page (weekly_automation.py) -/

/-- Rest of the text after the first `</div>` that is reachable without
crossing a newline: the lazy `.*?` of the risk-badge pattern of
`create_report_page` carries no `re.DOTALL`. -/
def scanCloseNoNl : List Char → Option (List Char)
  | [] => none
  | c :: cs =>
    if "</div>".data.isPrefixOf (c :: cs) then some ((c :: cs).drop 6)
    else if c = '\n' then none
    else scanCloseNoNl cs

/-- Pattern `<div class="risk-badge risk-\w+">.*?</div>` (no flags) with
replacement `<div class="risk-badge CLASS">⚠️ LEVEL RISK</div>`
(`count=1`). -/
def tryRiskBadgeDiv (riskClass riskLevel : List Char) (s : List Char) :
    Option (List Char × List Char) :=
  (lit "<div class=\"risk-badge risk-".data s).bind fun s1 =>
  if (s1.takeWhile wordChar).isEmpty then none else
  (lit "\">".data (s1.dropWhile wordChar)).bind fun s2 =>
  (scanCloseNoNl s2).bind fun s3 =>
  some ("<div class=\"risk-badge ".data ++ riskClass ++ "\">⚠️ ".data
      ++ riskLevel ++ " RISK</div>".data, s3)

def overallLit : List Char := "<strong>Overall Risk Level: ".data

def strongBrLit : List Char := "</strong><br>\n".data

/-- Scan of `.*?<strong>Overall Risk Level: [^<]+</strong><br>\n` inside
the summary-box pattern: the first label occurrence followed by a non-empty
`[^<]+` run and the closing literal; occurrences failing that continuation
are skipped by extending the lazy `.*?`. -/
def scanOverall : List Char → Option (List Char × List Char)
  | [] => none
  | c :: cs =>
    if overallLit.isPrefixOf (c :: cs) &&
        !(((c :: cs).drop overallLit.length).takeWhile (fun x => x != '<')).isEmpty &&
        strongBrLit.isPrefixOf (((c :: cs).drop overallLit.length).dropWhile (fun x => x != '<')) then
      some ([], (((c :: cs).drop overallLit.length).dropWhile (fun x => x != '<')).drop strongBrLit.length)
    else
      match scanOverall cs with
      | some (b, r) => some (c :: b, r)
      | none => none

/-- Pattern `(<div class="summary-box">.*?<strong>Overall Risk Level: )`
`[^<]+(</strong><br>\n)(.*?)(</div>)` under `re.DOTALL` with replacement
`\1LEVEL\2                BULLETS\n            \4` (`count=1`): the old
risk word and the old body (group 3) are dropped.  `p1` is the `refPieces`
outcome for the fragment `\1LEVEL` (LEVEL may head with a digit); `\2` is
followed by a space and `\4` by the template end, so those references
always stay plain group references and groups 2 and 4 match fixed
literals, inlined here. -/
def trySummaryBox (p1 : Bool × List Char) (bullets : List Char) (s : List Char) :
    Option (List Char × List Char) :=
  (lit "<div class=\"summary-box\">".data s).bind fun s1 =>
  (scanOverall s1).bind fun br =>
  (splitFirstLit "</div>".data br.2).bind fun pr =>
  some ((if p1.1 then "<div class=\"summary-box\">".data ++ br.1 ++ overallLit else [])
      ++ p1.2 ++ strongBrLit ++ "                ".data ++ bullets
      ++ "\n            </div>".data, pr.2)

/-- The rendered summary block
`'<br>\n                '.join(f'• {s}' for s in data['summary'])`. -/
def summaryJoined (summary : List (List Char)) : List Char :=
  List.intercalate "<br>\n                ".data (summary.map (fun b => "• ".data ++ b))

def sectionTitleLit : List Char := "<div class=\"section-title\">".data

def marker40 : List Char := "<!-- ".data ++ List.replicate 40 '='

/-- Scan of `(.*?)(</div>\s*<!-- ={40})`: the lazy group stops at the first
`</div>` occurrence followed by maximal whitespace and the comment marker.
Returns the skipped text, the captured group 3, and the rest. -/
def scanCloseWsMarker : List Char → Option (List Char × List Char × List Char)
  | [] => none
  | c :: cs =>
    if "</div>".data.isPrefixOf (c :: cs) &&
        marker40.isPrefixOf (((c :: cs).drop 6).dropWhile pySpace) then
      some ([], "</div>".data ++ ((c :: cs).drop 6).takeWhile pySpace ++ marker40,
        (((c :: cs).drop 6).dropWhile pySpace).drop marker40.length)
    else
      match scanCloseWsMarker cs with
      | some (b, g, r) => some (c :: b, g, r)
      | none => none

/-- Patterns `(<div class="section-title">.*?TAG.*?</div>)(.*?)` followed
by `(</div>\s*<!-- ={40})` under `re.DOTALL` with replacement `\1NEWMID\3`
(`count=1`); TAG is `P0 —` for the P0 list and `Red Flags` for the
other-changes list. -/
def trySection (tag newMid : List Char) (s : List Char) :
    Option (List Char × List Char) :=
  (lit sectionTitleLit s).bind fun s1 =>
  (splitFirstLit tag s1).bind fun pr1 =>
  (splitFirstLit "</div>".data pr1.2).bind fun pr2 =>
  (scanCloseWsMarker pr2.2).bind fun bgr =>
  some (sectionTitleLit ++ pr1.1 ++ tag ++ pr2.1 ++ "</div>".data
      ++ newMid ++ bgr.2.1, bgr.2.2)

/-- One block of the report-page P0 fragment (`p0_html` loop body; the
source renders `item['description'] if item['description'] else ''`). -/
def p0ItemFrag (it : P0Item) : List Char :=
  "\n            <div class=\"risk-item critical\">\n                <div class=\"risk-item-title\">\n                    <span class=\"emoji\">🎯</span>\n                    ".data
  ++ it.title
  ++ "\n                </div>\n                <div class=\"risk-item-description\">\n                    ".data
  ++ (if it.description.isEmpty then [] else it.description)
  ++ "\n                </div>\n                <div class=\"risk-item-impact\">\n                    ".data
  ++ it.full_text
  ++ "\n                </div>\n            </div>\n".data

def p0Html (items : List P0Item) : List Char := (items.map p0ItemFrag).flatten

/-- One block of the report-page red-flags fragment. -/
def redFlagFrag (change : List Char) : List Char :=
  "\n            <div class=\"risk-item high\">\n                <div class=\"risk-item-title\">\n                    <span class=\"emoji\">⚠️</span>\n                    ".data
  ++ change
  ++ "\n                </div>\n            </div>\n".data

def redFlagsHtml (changes : List (List Char)) : List Char :=
  (changes.map redFlagFrag).flatten

/-- Pattern `(Localizations \(string updates only\).*?Smart Review)` under
`re.DOTALL` with the zero-risk text as replacement; this call passes no
`count`, so every match is replaced. -/
def tryZeroRisk (zr : List Char) (s : List Char) :
    Option (List Char × List Char) :=
  (lit "Localizations (string updates only)".data s).bind fun s1 =>
  (splitFirstLit "Smart Review".data s1).map fun pr => (zr, pr.2)

/-- Pattern `(Generated by Claude AI • )[^<]+(<br>)` with replacement
`\1TIMESTAMP\2` (no `count`, so every match is replaced); `pre` is the
rendered `\1TIMESTAMP` part through `refPieces`. -/
def tryGenerated (pre : List Char) (s : List Char) :
    Option (List Char × List Char) :=
  (lit "Generated by Claude AI • ".data s).bind fun s1 =>
  if (s1.takeWhile (fun c => c != '<')).isEmpty then none else
  (lit "<br>".data (s1.dropWhile (fun c => c != '<'))).bind fun s2 =>
  some (pre ++ "<br>".data, s2)

/-- Pattern `(Report ID: Android RC )[\d.]+(</div>)` of
`weekly_automation.py` with replacement `\1VERSION • WEEKOF\2` (no
`count`); `pre` is the rendered `\1VERSION • WEEKOF` part through
`refPieces`. -/
def tryReportId (pre : List Char) (s : List Char) :
    Option (List Char × List Char) :=
  (lit "Report ID: Android RC ".data s).bind fun s1 =>
  if (s1.takeWhile digitDot).isEmpty then none else
  (lit "</div>".data (s1.dropWhile digitDot)).bind fun s2 =>
  some (pre ++ "</div>".data, s2)

namespace weekly_automation

/-- Rendered replacement of the risk-badge substitution: the template
`\1RISKCLASS\2RISKLEVEL\3` through `refPieces` (groups 1–3 of the pattern
are the fixed literals restored here; `\3` is followed by the template
end). -/
def riskBadgeRepl (riskClass riskLevel : List Char) : Option (List Char) :=
  (refPieces 1 riskClass).bind fun p1 =>
  (refPieces 2 riskLevel).map fun p2 =>
    (if p1.1 then "<span class=\"risk-level ".data else []) ++ p1.2
      ++ (if p2.1 then "\">".data else []) ++ p2.2
      ++ "</span>".data

/-- Rendered replacement of the version-line substitution: the template
`\1VERSION\2WEEKOF` through `refPieces` (both groups are fixed
literals). -/
def versionLineRepl (version weekOf : List Char) : Option (List Char) :=
  (refPieces 1 version).bind fun p1 =>
  (refPieces 2 weekOf).map fun p2 =>
    (if p1.1 then "<strong>Android RC ".data else []) ++ p1.2
      ++ (if p2.1 then "</strong> • Week of ".data else []) ++ p2.2

/-- Rendered `\1COUNT` part of a counter template through `refPieces`
(group 1 is the fixed value-div literal; `\2` is followed by the template
end and is restored by `tryStatCount` from the match). -/
def statCountPre (color : List Char) (count : Nat) : Option (List Char) :=
  (refPieces 1 (natStr count)).map fun p =>
    (if p.1 then
      "<div class=\"stat-mini-value\" style=\"color: ".data ++ color ++ ";\">".data
    else []) ++ p.2

/-- Rendered replacement of the report-link substitution: the template
`\1DATE\2` through `refPieces` (fixed-literal groups; `\2` is followed by
the template end). -/
def reportLinkRepl (reportDate : List Char) : Option (List Char) :=
  (refPieces 1 reportDate).map fun p =>
    (if p.1 then "<a href=\"reports/".data else []) ++ p.2
      ++ ".html\" class=\"view-full-report\">".data

/-- Rendered replacement of the footer-timestamp substitution: the
template `\1TIMESTAMP` through `refPieces` (fixed-literal group). -/
def lastUpdatedRepl (now : List Char) : Option (List Char) :=
  (refPieces 1 now).map fun p =>
    (if p.1 then "<span class=\"last-updated\">Last Updated:</span> ".data else [])
      ++ p.2

/-- The in-memory buffer transformation of `update_main_dashboard` of
`weekly_automation.py`: its seven substitutions in program order.  `now` is
the rendered `datetime.now().strftime("%B %d, %Y at %I:%M %p PST")`, an
ambient read made explicit.  `none` is the `re.error` CPython raises while
parsing a rejected replacement template; template validity does not
depend on the buffer or on earlier substitutions, and a raise anywhere
discards the in-memory buffer, so the checks are hoisted before the
chain. -/
def update_main_dashboard (data : Report) (version week_of report_date now : List Char)
    (content : List Char) : Option (List Char) :=
  (riskBadgeRepl (riskClassOf data.riskLevel) data.riskLevel).bind fun r1 =>
  (versionLineRepl version week_of).bind fun r2 =>
  (statCountPre "#d44c47".data data.p0Items.length).bind fun pre3 =>
  (statCountPre "#cb912f".data data.otherChanges.length).bind fun pre4 =>
  (refPieces 1 (pyStrip (top3Html data.p0Items) ++ "\n                ".data)).bind fun p5 =>
  (reportLinkRepl report_date).bind fun r6 =>
  (lastUpdatedRepl now).map fun r7 =>
    let c1 := subFirst (tryRiskBadge r1) content
    let c2 := subFirst (tryVersionLine r2) c1
    let c3 := subFirst (tryStatCount "#d44c47".data "P0 Items".data pre3) c2
    let c4 := subFirst (tryStatCount "#cb912f".data "Red Flags".data pre4) c3
    let c5 := subFirst (tryTop3 p5.1 p5.2) c4
    let c6 := subFirst (tryReportLink r6) c5
    subAll (tryLastUpdated r7) c6

/-- Rendered `\1TIMESTAMP` part of the generated-footer template through
`refPieces`. -/
def generatedPre (now : List Char) : Option (List Char) :=
  (refPieces 1 now).map fun p =>
    (if p.1 then "Generated by Claude AI • ".data else []) ++ p.2

/-- Rendered `\1VERSION • WEEKOF` part of the report-ID template through
`refPieces` (the value after `\1` runs to the `\2` of the template). -/
def reportIdPre (version weekOf : List Char) : Option (List Char) :=
  (refPieces 1 (version ++ " • ".data ++ weekOf)).map fun p =>
    (if p.1 then "Report ID: Android RC ".data else []) ++ p.2

/-- The content transformation of `create_report_page` of
`weekly_automation.py`: template text to written report page, with `now`
the rendered current time.  The zero-risk substitution runs only when the
parsed zero-risk text is non-empty, and the red-flags substitution only
when the rendered red-flags fragment is non-empty.  As in
`update_main_dashboard`, `none` is a raised template-parse `re.error`,
hoisted before the chain; the summary template's `\1LEVEL` fragment is
parsed by `refPieces` (its `\2` and `\4` are followed by a space and the
template end, so they stay plain references). -/
def create_report_page (data : Report) (version week_of now : List Char)
    (template : List Char) : Option (List Char) :=
  (refPieces 1 data.riskLevel).bind fun p5 =>
  (generatedPre now).bind fun pre9 =>
  (reportIdPre version week_of).map fun pre10 =>
    let c1 := replaceAllLit "Android RC 4.33.0".data ("Android RC ".data ++ version) template
    let c2 := replaceAllLit "Jan 27, 2026".data week_of c1
    let c3 := replaceAllLit "January 27, 2026".data week_of c2
    let c4 := subFirst (tryRiskBadgeDiv (riskClassOf data.riskLevel) data.riskLevel) c3
    let c5 := subFirst (trySummaryBox p5 (summaryJoined data.summary)) c4
    let c6 := subFirst (trySection "P0 —".data
      ("\n".data ++ p0Html data.p0Items ++ "\n        ".data)) c5
    let c7 := if data.zeroRisk.isEmpty then c6 else subAll (tryZeroRisk data.zeroRisk) c6
    let c8 := if (redFlagsHtml data.otherChanges).isEmpty then c7
              else subFirst (trySection "Red Flags".data
                ("\n".data ++ redFlagsHtml data.otherChanges ++ "\n        ".data)) c7
    let c9 := subAll (tryGenerated pre9) c8
    subAll (tryReportId pre10) c9

end weekly_automation

/-! ### The dashboard patcher of weekly_automation_with_fetch.py -/

namespace weekly_automation_with_fetch

def topConcernsLit : List Char := "Top Concerns:</div>".data

/-- Scan of `.*?Top Concerns:</div>\s*</div>\s*` of the fetch-variant
top-3 pattern: the first `Top Concerns:</div>` occurrence followed, after
maximal whitespace, by a second `</div>`.  Returns the skipped text, the
rest of group 1 from the occurrence on, and the rest of the text. -/
def scanTopConcerns : List Char → Option (List Char × List Char × List Char)
  | [] => none
  | c :: cs =>
    if topConcernsLit.isPrefixOf (c :: cs) &&
        "</div>".data.isPrefixOf (((c :: cs).drop topConcernsLit.length).dropWhile pySpace) then
      some ([],
        topConcernsLit ++ ((c :: cs).drop topConcernsLit.length).takeWhile pySpace
          ++ "</div>".data
          ++ ((((c :: cs).drop topConcernsLit.length).dropWhile pySpace).drop 6).takeWhile pySpace,
        ((((c :: cs).drop topConcernsLit.length).dropWhile pySpace).drop 6).dropWhile pySpace)
    else
      match scanTopConcerns cs with
      | some (p, g, r) => some (c :: p, g, r)
      | none => none

def warningLit : List Char := "<!-- UPDATE: Warning message -->".data

/-- Scan of `(.*?)(\s*<!-- UPDATE: Warning message -->)`: the lazy group
stops at the first position from which maximal whitespace is directly
followed by the warning marker. -/
def scanWsWarning : List Char → Option (List Char × List Char × List Char)
  | [] => none
  | c :: cs =>
    if warningLit.isPrefixOf ((c :: cs).dropWhile pySpace) then
      some ([], (c :: cs).takeWhile pySpace ++ warningLit,
        ((c :: cs).dropWhile pySpace).drop warningLit.length)
    else
      match scanWsWarning cs with
      | some (b, g, r) => some (c :: b, g, r)
      | none => none

/-- Pattern `(<div style="margin-bottom: 8px;">.*?Top Concerns:</div>\s*`
`</div>\s*)(.*?)(\s*<!-- UPDATE: Warning message -->)` under `re.DOTALL`
with replacement `\1\n                FRAG\3` (`count=1`). -/
def tryTop3Fetch (frag : List Char) (s : List Char) :
    Option (List Char × List Char) :=
  (lit "<div style=\"margin-bottom: 8px;\">".data s).bind fun s1 =>
  (scanTopConcerns s1).bind fun pgr =>
  (scanWsWarning pgr.2.2).bind fun mgr =>
  some ("<div style=\"margin-bottom: 8px;\">".data ++ pgr.1 ++ pgr.2.1
      ++ "\n                ".data ++ frag ++ mgr.2.1, mgr.2.2)

/-- One block of the fetch-variant top-3 fragment (its `top_3_html` loop
body starts without a leading newline). -/
def top3ItemFragFetch (it : P0Item) : List Char :=
  "<div class=\"risk-item critical\">\n                    <div class=\"risk-item-title\">".data
  ++ it.title
  ++ "</div>\n                    <div class=\"risk-item-description\">".data
  ++ (if it.description.isEmpty then it.full_text else it.description)
  ++ "</div>\n                </div>\n                ".data

def top3HtmlFetch (items : List P0Item) : List Char :=
  ((items.take 3).map top3ItemFragFetch).flatten

def rcBoxLit : List Char :=
  "<div style=\"font-size: 10px; color: #9b9a97; margin-bottom: 8px;\">".data

/-- Pattern `(<div style="font-size: 10px; color: #9b9a97; margin-bottom: 8px;">)`
`\s*Last updated: [^<]+` with replacement
`\1\n                    Last updated: TS` (`count=1`). -/
def tryRcTimestamp (ts : List Char) (s : List Char) :
    Option (List Char × List Char) :=
  (lit rcBoxLit s).bind fun s1 =>
  (lit "Last updated: ".data (s1.dropWhile pySpace)).bind fun s2 =>
  if (s2.takeWhile (fun c => c != '<')).isEmpty then none else
  some (rcBoxLit ++ "\n                    Last updated: ".data ++ ts,
    s2.dropWhile (fun c => c != '<'))

/-- The buffer transformation of `update_main_dashboard` of
`weekly_automation_with_fetch.py`: eight substitutions in program order,
with the top-3 substitution guarded by `if data['p0Items']:`.  `nowLong`
and `nowShort` are the two strftime renderings of the ambient time.  Its
replacements rebuild the whole new text without group references (and its
two grouped templates put `\n` directly after `\1`, and `\3` before the
template end), so no template parse can raise and the function is
total. -/
def update_main_dashboard (data : Report)
    (version week_of report_date nowLong nowShort : List Char)
    (content : List Char) : List Char :=
  let c1 := subFirst (tryRiskBadge ("<span class=\"risk-level ".data
    ++ riskClassOf data.riskLevel ++ "\">".data ++ data.riskLevel ++ "</span>".data)) content
  let c2 := subFirst (tryVersionLine ("<strong>Android RC ".data ++ version
    ++ "</strong> • Week of ".data ++ week_of)) c1
  let c3 := subFirst (tryStatCountFetch "#d44c47".data "P0 Items".data (natStr data.p0Items.length)) c2
  let c4 := subFirst (tryStatCountFetch "#cb912f".data "Medium Risk".data (natStr data.otherChanges.length)) c3
  let c5 := if data.p0Items.isEmpty then c4
            else subFirst (tryTop3Fetch (pyStrip (top3HtmlFetch data.p0Items))) c4
  let c6 := subFirst (tryReportLink ("<a href=\"reports/".data ++ report_date
    ++ ".html\" class=\"view-full-report\">".data)) c5
  let c7 := subAll (tryLastUpdated ("<span class=\"last-updated\">Last Updated:</span> ".data
    ++ nowLong)) c6
  subFirst (tryRcTimestamp nowShort) c7

end weekly_automation_with_fetch

/-! ## Line decomposition

The spec counts "bullet lines" of a section span; the glossary defines a
bullet as a line of text beginning with a bullet-marker glyph.  These
definitions state that count; they are spec-side vocabulary, not code. -/

/-- Decomposition of a text into newline-separated lines. -/
def splitLines : List Char → List (List Char)
  | [] => [[]]
  | c :: cs =>
    if c = '\n' then [] :: splitLines cs
    else
      match splitLines cs with
      | l :: ls => (c :: l) :: ls
      | [] => [[c]]

/-- Concatenation of lines with newline separators, inverse of
`splitLines`. -/
def joinLines : List (List Char) → List Char
  | [] => []
  | [l] => l
  | l :: ls => l ++ '\n' :: joinLines ls

/-- A line whose first character is the bullet marker. -/
def isBulletLine : List Char → Bool
  | c :: _ => c == '•'
  | [] => false

/-- The text a bullet line carries: everything after the marker and its
following whitespace. -/
def bulletCapture (l : List Char) : List Char := (l.drop 1).dropWhile pySpace

/-- Well-formedness of a span for line-by-line bullet counting: every
bullet marker starts a line, and every bullet line has a non-whitespace
character after its marker. -/
def goodBulletSpan (s : List Char) : Bool :=
  (splitLines s).all fun l =>
    (l.drop 1).all (fun c => c != '•') &&
    (!(isBulletLine l) || !(bulletCapture l).isEmpty)

/-- The part of a bullet before its first em-dash (the whole bullet when it
has none); `title` is this text stripped. -/
def preEm (b : List Char) : List Char :=
  match splitEm b with
  | some pr => pr.1
  | none => b

/-- The empty report: `MEDIUM` default risk level, no items. -/
def emptyReport : Report :=
  { riskLevel := "MEDIUM".data, summary := [], p0Items := [],
    otherChanges := [], zeroRisk := [] }

/-! ## Concrete documents and report texts used by counterexamples and
witnesses -/

/-- A dashboard buffer containing only the footer-timestamp anchor. -/
def docFooterOnly : List Char :=
  "<span class=\"last-updated\">Last Updated:</span> old •end".data

/-- A report-page buffer containing the zero-risk anchor twice. -/
def docTwoLocalizations : List Char :=
  "a Localizations (string updates only) x Smart Review b Localizations (string updates only) y Smart Review c".data

/-- A report with only a parsed zero-risk text. -/
def rptZero : Report :=
  { riskLevel := "MEDIUM".data, summary := [], p0Items := [],
    otherChanges := [], zeroRisk := "ZR".data }

/-- A report with twelve P0 items and twelve other changes: both counter
values render as `12`, whose first two digits are octal, so the counter
templates parse as octal escapes instead of raising. -/
def rpt12 : Report :=
  { riskLevel := "MEDIUM".data, summary := [],
    p0Items := List.replicate 12 (mkP0Item "item".data),
    otherChanges := List.replicate 12 "c".data, zeroRisk := [] }

/-- A dashboard buffer containing only the top-3 anchor with one existing
critical block. -/
def docTop3Only : List Char :=
  "<div style=\"margin-bottom: 8px;\">Top</div> <div class=\"risk-item critical\">OLD</div> END".data

/-- A report text with all four sections in order whose P0 span contains a
mid-line bullet marker. -/
def reportMidlineBullet : List Char :=
  "Overall Release Risk Level: LOW\n• ok\nP0 — focus\n• A\nmid • B\nOther Notable Changes\n• c\nNo Code Changes\n• z\n".data

/-- A report text with all four sections in order and a well-formed P0
span. -/
def reportGoodP0 : List Char :=
  "Overall Release Risk Level: LOW\n• ok\nP0 — focus\n• ABC-12 — first item\n• second item\nOther Notable Changes\n• c\nNo Code Changes\n• z\n".data

/-! # Lemmas -/

/-! ## Fuel elimination for the scans -/

theorem findBulletsAux_nil (n : Nat) : findBulletsAux n [] = [] := by
  cases n <;> rfl

theorem findBulletsAux_irrel :
    ∀ (n m : Nat) (l : List Char), l.length ≤ n → l.length ≤ m →
      findBulletsAux n l = findBulletsAux m l := by
  intro n
  induction n with
  | zero =>
    intro m l hn _
    have : l = [] := List.length_eq_zero.mp (Nat.le_zero.mp hn)
    subst this
    simp [findBulletsAux_nil]
  | succ n ih =>
    intro m l hn hm
    cases l with
    | nil => simp [findBulletsAux_nil]
    | cons c cs =>
      cases m with
      | zero => simp at hm
      | succ m =>
        have hcs : cs.length ≤ n := by simpa using Nat.succ_le_succ_iff.mp hn
        have hcs2 : cs.length ≤ m := by simpa using Nat.succ_le_succ_iff.mp hm
        have hdw : (cs.dropWhile pySpace).length ≤ cs.length :=
          (cs.dropWhile_sublist pySpace).length_le
        have hdw2 : ((cs.dropWhile pySpace).dropWhile notNl).length
            ≤ (cs.dropWhile pySpace).length :=
          ((cs.dropWhile pySpace).dropWhile_sublist notNl).length_le
        simp only [findBulletsAux]
        split
        · split
          · rfl
          · rw [ih m _ (by omega) (by omega)]
        · rw [ih m cs (by omega) (by omega)]

/-- One-step unfolding of the bullet scan, free of fuel. -/
theorem findBullets_cons (c : Char) (cs : List Char) :
    findBullets (c :: cs) =
      if c = '•' then
        if (cs.dropWhile pySpace).isEmpty then
          match (cs.filter notNl).getLast? with
          | some ch => [[ch]]
          | none => []
        else
          (cs.dropWhile pySpace).takeWhile notNl ::
            findBullets ((cs.dropWhile pySpace).dropWhile notNl)
      else findBullets cs := by
  have hdw : (cs.dropWhile pySpace).length ≤ cs.length :=
    (cs.dropWhile_sublist pySpace).length_le
  have hdw2 : ((cs.dropWhile pySpace).dropWhile notNl).length
      ≤ (cs.dropWhile pySpace).length :=
    ((cs.dropWhile pySpace).dropWhile_sublist notNl).length_le
  show findBulletsAux (cs.length + 1) (c :: cs) = _
  simp only [findBulletsAux]
  split
  · split
    · rfl
    · rw [findBulletsAux_irrel cs.length _ _ (by omega) (le_refl _)]
      rfl
  · rw [findBulletsAux_irrel cs.length cs.length cs (le_refl _) (le_refl _)]
    rfl

/-- Positions without a bullet marker are skipped by the scan. -/
theorem findBullets_append_of_no_bullet :
    ∀ (a b : List Char), '•' ∉ a → findBullets (a ++ b) = findBullets b := by
  intro a
  induction a with
  | nil => intro b _; rfl
  | cons c cs ih =>
    intro b hmem
    have hc : c ≠ '•' := fun h => hmem (h ▸ List.mem_cons_self c cs)
    rw [List.cons_append, findBullets_cons]
    simp only [hc, if_false]
    exact ih b (fun h => hmem (List.mem_cons_of_mem c h))

/-! ## Strip lemmas -/

theorem dropWhile_dropWhile (p : Char → Bool) (l : List Char) :
    (l.dropWhile p).dropWhile p = l.dropWhile p := by
  induction l with
  | nil => rfl
  | cons c cs ih =>
    by_cases h : p c
    · simp [List.dropWhile_cons, h, ih]
    · simp [List.dropWhile_cons, h]

theorem pyStrip_dropWhile (l : List Char) :
    pyStrip (l.dropWhile pySpace) = pyStrip l := by
  unfold pyStrip
  rw [dropWhile_dropWhile]

theorem mem_of_mem_dropWhile (p : Char → Bool) (l : List Char) (x : Char)
    (h : x ∈ l.dropWhile p) : x ∈ l :=
  (l.dropWhile_sublist p).mem h

theorem mem_of_mem_pyStrip (l : List Char) (x : Char) (h : x ∈ pyStrip l) :
    x ∈ l := by
  unfold pyStrip at h
  rw [List.mem_reverse] at h
  have h2 := mem_of_mem_dropWhile _ _ _ h
  rw [List.mem_reverse] at h2
  exact mem_of_mem_dropWhile _ _ _ h2

theorem mem_dropWhile_of_not (p : Char → Bool) (l : List Char) (x : Char)
    (hx : x ∈ l) (hpx : p x = false) : x ∈ l.dropWhile p := by
  induction l with
  | nil => cases hx
  | cons c cs ih =>
    by_cases h : p c
    · rw [List.dropWhile_cons_of_pos h]
      rcases List.mem_cons.mp hx with rfl | hmem
      · rw [h] at hpx; cases hpx
      · exact ih hmem
    · rw [List.dropWhile_cons_of_neg h]
      exact hx

theorem mem_pyStrip_of_not_space (l : List Char) (x : Char)
    (hx : x ∈ l) (hpx : pySpace x = false) : x ∈ pyStrip l := by
  unfold pyStrip
  rw [List.mem_reverse]
  apply mem_dropWhile_of_not _ _ _ _ hpx
  rw [List.mem_reverse]
  exact mem_dropWhile_of_not _ _ _ hx hpx

theorem infix_dropWhile_of_head_not (p : Char → Bool) (t l : List Char)
    (ht : t ≠ []) (hh : p (t.headI) = false) (hinf : t <:+: l) :
    t <:+: l.dropWhile p := by
  obtain ⟨a, b, rfl⟩ := hinf
  rw [List.append_assoc, List.dropWhile_append]
  split
  · cases t with
    | nil => exact absurd rfl ht
    | cons th tt =>
      simp only [List.headI] at hh
      rw [List.cons_append, List.dropWhile_cons_of_neg (by simp [hh])]
      exact ⟨[], b, by simp⟩
  · exact ⟨a.dropWhile p, b, by simp⟩

theorem infix_pyStrip (t l : List Char)
    (ht : t ≠ []) (hns : ∀ c ∈ t, pySpace c = false) (hinf : t <:+: l) :
    t <:+: pyStrip l := by
  have h1 : t <:+: l.dropWhile pySpace := by
    apply infix_dropWhile_of_head_not _ _ _ ht _ hinf
    cases t with
    | nil => exact absurd rfl ht
    | cons th tt => exact hns th (List.mem_cons_self th tt)
  have h2 : t.reverse <:+: (l.dropWhile pySpace).reverse :=
    List.reverse_infix.mpr h1
  have h3 : t.reverse <:+: ((l.dropWhile pySpace).reverse).dropWhile pySpace := by
    apply infix_dropWhile_of_head_not _ _ _ (by simpa using ht) _ h2
    cases h : t.reverse with
    | nil => simp at h; exact absurd h ht
    | cons th tt =>
      have : th ∈ t.reverse := h ▸ List.mem_cons_self th tt
      simp only [h, List.headI]
      exact hns th (List.mem_reverse.mp this)
  unfold pyStrip
  simpa using List.reverse_infix.mpr h3

/-! ## Line lemmas -/

theorem splitLines_ne_nil (s : List Char) : splitLines s ≠ [] := by
  cases s with
  | nil => simp [splitLines]
  | cons c cs =>
    simp only [splitLines]
    split
    · simp
    · split <;> simp

theorem joinLines_cons_cons (l l2 : List Char) (ls : List (List Char)) :
    joinLines (l :: l2 :: ls) = l ++ '\n' :: joinLines (l2 :: ls) := rfl

theorem joinLines_splitLines (s : List Char) : joinLines (splitLines s) = s := by
  induction s with
  | nil => rfl
  | cons c cs ih =>
    simp only [splitLines]
    split
    · rename_i hc
      subst hc
      cases h : splitLines cs with
      | nil => exact absurd h (splitLines_ne_nil cs)
      | cons l ls =>
        rw [h] at ih
        rw [joinLines_cons_cons]
        simp [ih]
    · cases h : splitLines cs with
      | nil => exact absurd h (splitLines_ne_nil cs)
      | cons l ls =>
        rw [h] at ih
        cases ls with
        | nil =>
          simp only [joinLines] at ih ⊢
          rw [ih]
        | cons l2 ls2 =>
          rw [joinLines_cons_cons] at ih ⊢
          rw [List.cons_append, ih]

theorem nl_not_mem_splitLines (s : List Char) :
    ∀ l ∈ splitLines s, '\n' ∉ l := by
  induction s with
  | nil =>
    intro l hl
    simp [splitLines] at hl
    simp [hl]
  | cons c cs ih =>
    intro l hl
    simp only [splitLines] at hl
    by_cases hc : c = '\n'
    · rw [if_pos hc] at hl
      rcases List.mem_cons.mp hl with rfl | h
      · simp
      · exact ih l h
    · rw [if_neg hc] at hl
      cases h : splitLines cs with
      | nil => exact absurd h (splitLines_ne_nil cs)
      | cons l0 ls =>
        rw [h] at hl
        rcases List.mem_cons.mp hl with rfl | hmem
        · intro hnl
          rcases List.mem_cons.mp hnl with h1 | h2
          · exact hc h1.symm
          · exact ih l0 (h ▸ List.mem_cons_self l0 ls) h2
        · exact ih l (h ▸ List.mem_cons_of_mem l0 hmem)

/-- Computation of the scan across one well-formed bullet line followed by
nothing or by a newline and further text. -/
theorem findBullets_bullet_line (tl rest : List Char)
    (hnl : '\n' ∉ tl) (hr : tl.dropWhile pySpace ≠ [])
    (hrest : rest = [] ∨ ∃ X, rest = '\n' :: X) :
    findBullets ('•' :: (tl ++ rest))
      = tl.dropWhile pySpace :: findBullets (rest.drop 1) := by
  have hrAll : ∀ c ∈ tl.dropWhile pySpace, notNl c = true := by
    intro c hc
    have hmem : c ∈ tl := mem_of_mem_dropWhile _ _ _ hc
    unfold notNl
    simp only [bne_iff_ne, ne_eq]
    intro h
    exact hnl (h ▸ hmem)
  have hdwa : (tl ++ rest).dropWhile pySpace = tl.dropWhile pySpace ++ rest := by
    rw [List.dropWhile_append, if_neg]
    simp only [List.isEmpty_iff]
    exact hr
  rw [findBullets_cons, if_pos rfl, hdwa]
  have hne : (tl.dropWhile pySpace ++ rest).isEmpty = false := by
    cases h : tl.dropWhile pySpace with
    | nil => exact absurd h hr
    | cons a as => simp
  rw [hne]
  simp only [Bool.false_eq_true, if_false]
  have ht : (tl.dropWhile pySpace ++ rest).takeWhile notNl = tl.dropWhile pySpace := by
    rw [List.takeWhile_append, List.takeWhile_eq_self_iff.mpr hrAll, if_pos rfl]
    rcases hrest with rfl | ⟨X, rfl⟩
    · simp
    · rw [List.takeWhile_cons_of_neg (by decide)]
      simp
  have hd : (tl.dropWhile pySpace ++ rest).dropWhile notNl = rest := by
    rw [List.dropWhile_append, if_pos]
    · rcases hrest with rfl | ⟨X, rfl⟩
      · simp
      · rw [List.dropWhile_cons_of_neg (by decide)]
    · simp only [List.isEmpty_iff]
      exact List.dropWhile_eq_nil_iff.mpr hrAll
  rw [ht, hd]
  rcases hrest with rfl | ⟨X, rfl⟩
  · rfl
  · rw [findBullets_cons, if_neg (by decide)]
    rfl

/-- Core counting lemma: on a text whose bullet markers all start lines and
whose bullet lines carry non-whitespace text, the bullet scan produces
exactly one capture per bullet line, in line order. -/
theorem findBullets_lines :
    ∀ ls : List (List Char),
      (∀ l ∈ ls, '\n' ∉ l) →
      (∀ l ∈ ls, ∀ c ∈ l.drop 1, c ≠ '•') →
      (∀ l ∈ ls, isBulletLine l = true → bulletCapture l ≠ []) →
      findBullets (joinLines ls) = (ls.filter isBulletLine).map bulletCapture := by
  intro ls
  induction ls with
  | nil => intro _ _ _; rfl
  | cons l ls ih =>
    intro h1 h2 h3
    have hl1 : '\n' ∉ l := h1 l (List.mem_cons_self l ls)
    have hl2 : ∀ c ∈ l.drop 1, c ≠ '•' := h2 l (List.mem_cons_self l ls)
    have hih : findBullets (joinLines ls) = (ls.filter isBulletLine).map bulletCapture :=
      ih (fun x hx => h1 x (List.mem_cons_of_mem l hx))
         (fun x hx => h2 x (List.mem_cons_of_mem l hx))
         (fun x hx => h3 x (List.mem_cons_of_mem l hx))
    by_cases hb : isBulletLine l = true
    · obtain ⟨tl, rfl⟩ : ∃ tl, l = '•' :: tl := by
        cases l with
        | nil => simp [isBulletLine] at hb
        | cons c0 cs0 =>
          simp only [isBulletLine, beq_iff_eq] at hb
          exact ⟨cs0, by rw [hb]⟩
      have hnl_tl : '\n' ∉ tl := fun h => hl1 (List.mem_cons_of_mem _ h)
      have hcap : tl.dropWhile pySpace ≠ [] := by
        have := h3 _ (List.mem_cons_self _ ls) hb
        simpa [bulletCapture] using this
      cases ls with
      | nil =>
        show findBullets ('•' :: tl) = _
        have := findBullets_bullet_line tl [] hnl_tl hcap (Or.inl rfl)
        simp only [List.append_nil] at this
        rw [this]
        simp only [List.drop_nil]
        simp [hb, bulletCapture]
        rfl
      | cons l2 ls2 =>
        rw [joinLines_cons_cons]
        show findBullets ('•' :: (tl ++ '\n' :: joinLines (l2 :: ls2))) = _
        rw [findBullets_bullet_line tl _ hnl_tl hcap (Or.inr ⟨_, rfl⟩)]
        simp only [List.drop_one, List.tail_cons]
        rw [hih]
        simp [hb, bulletCapture]
    · have hb' : isBulletLine l = false := by
        cases h : isBulletLine l
        · rfl
        · exact absurd h hb
      have hnb : '•' ∉ l := by
        cases l with
        | nil => simp
        | cons c0 cs0 =>
          simp only [isBulletLine, beq_iff_eq] at hb'
          intro hmem
          rcases List.mem_cons.mp hmem with h | h
          · simp [h.symm] at hb'
          · exact hl2 '•' (by simpa using h) rfl
      cases ls with
      | nil =>
        show findBullets l = _
        have := findBullets_append_of_no_bullet l [] hnb
        simp only [List.append_nil] at this
        rw [this]
        simp [hb']
        rfl
      | cons l2 ls2 =>
        rw [joinLines_cons_cons]
        rw [findBullets_append_of_no_bullet l _ hnb]
        rw [findBullets_cons, if_neg (by decide)]
        rw [hih]
        simp [hb']

/-! ## Ticket extraction lemmas -/

theorem extractTicket_substring :
    ∀ l : List Char, extractTicket l ≠ [] → extractTicket l <:+: l := by
  intro l
  induction l with
  | nil => intro h; exact absurd rfl h
  | cons c cs ih =>
    intro h
    rw [extractTicket] at h ⊢
    split
    · rename_i hcond
      have hsplit : (c :: cs).takeWhile isUpperAZ ++ (c :: cs).dropWhile isUpperAZ = c :: cs :=
        List.takeWhile_append_dropWhile isUpperAZ (c :: cs)
      simp only [Bool.and_eq_true, beq_iff_eq, Bool.not_eq_true', List.isEmpty_iff] at hcond
      obtain ⟨⟨hup, hhead⟩, hdig⟩ := hcond
      have hne : (c :: cs).dropWhile isUpperAZ ≠ [] := by
        intro hnil
        rw [hnil] at hhead
        simp [List.headI] at hhead
      obtain ⟨r0, hd⟩ : ∃ r0, (c :: cs).dropWhile isUpperAZ = '-' :: r0 := by
        cases hd : (c :: cs).dropWhile isUpperAZ with
        | nil => exact absurd hd hne
        | cons x xs =>
          rw [hd] at hhead
          simp only [List.headI] at hhead
          exact ⟨xs, by rw [hhead]⟩
      apply List.IsPrefix.isInfix
      refine ⟨r0.dropWhile Char.isDigit, ?_⟩
      rw [hd]
      simp only [List.drop_one, List.tail_cons]
      rw [List.append_assoc, List.cons_append, List.takeWhile_append_dropWhile,
        ← hd]
      exact hsplit
    · rename_i hcond
      rw [if_neg hcond] at h
      exact List.infix_cons (ih h)

theorem extractTicket_cons (c : Char) (cs : List Char) :
    extractTicket (c :: cs)
      = if isUpperAZ c
            && ((c :: cs).dropWhile isUpperAZ).headI == '-'
            && !((((c :: cs).dropWhile isUpperAZ).drop 1).takeWhile Char.isDigit).isEmpty then
          (c :: cs).takeWhile isUpperAZ
            ++ '-' :: (((c :: cs).dropWhile isUpperAZ).drop 1).takeWhile Char.isDigit
        else extractTicket cs := rfl

theorem extractTicket_chars :
    ∀ (l : List Char) (c : Char), c ∈ extractTicket l →
      isUpperAZ c = true ∨ c = '-' ∨ c.isDigit = true := by
  intro l
  induction l with
  | nil => intro c hc; cases hc
  | cons a as ih =>
    intro c hc
    rw [extractTicket] at hc
    split at hc
    · rcases List.mem_append.mp hc with h | h
      · exact Or.inl (List.mem_takeWhile_imp h)
      · rcases List.mem_cons.mp h with rfl | h2
        · exact Or.inr (Or.inl rfl)
        · exact Or.inr (Or.inr (List.mem_takeWhile_imp h2))
    · exact ih c hc

theorem upper_not_space (c : Char) (h : isUpperAZ c = true) : pySpace c = false := by
  cases hsp : pySpace c
  · rfl
  · exfalso
    unfold pySpace at hsp
    simp only [Bool.or_eq_true, beq_iff_eq] at hsp
    rcases hsp with ((((h1 | h1) | h1) | h1) | h1) | h1 <;>
      (subst h1; exact absurd h (by decide))

theorem digit_not_space (c : Char) (h : c.isDigit = true) : pySpace c = false := by
  cases hsp : pySpace c
  · rfl
  · exfalso
    unfold pySpace at hsp
    simp only [Bool.or_eq_true, beq_iff_eq] at hsp
    rcases hsp with ((((h1 | h1) | h1) | h1) | h1) | h1 <;>
      (subst h1; exact absurd h (by decide))

theorem extractTicket_not_space (l : List Char) (c : Char)
    (hc : c ∈ extractTicket l) : pySpace c = false := by
  rcases extractTicket_chars l c hc with h | rfl | h
  · exact upper_not_space c h
  · decide
  · exact digit_not_space c h

/-- The ticket search is insensitive to anything after a separator that can
extend none of its three runs: once the bullet's prefix contains a match,
appending a non-matching character and arbitrary further text leaves the
result unchanged. -/
theorem extractTicket_append_stable (d0 : Char) (tail : List Char)
    (hd1 : isUpperAZ d0 = false) (hd2 : d0 ≠ '-') (hd3 : d0.isDigit = false) :
    ∀ p : List Char, extractTicket p ≠ [] →
      extractTicket (p ++ d0 :: tail) = extractTicket p := by
  intro p
  induction p with
  | nil => intro h; exact absurd rfl h
  | cons c cs ih =>
    intro h
    rw [List.cons_append]
    cases hB : (c :: cs).dropWhile isUpperAZ with
    | nil =>
      have hdwA : (c :: (cs ++ d0 :: tail)).dropWhile isUpperAZ = d0 :: tail := by
        rw [show (c :: (cs ++ d0 :: tail)) = (c :: cs) ++ (d0 :: tail) from rfl,
          List.dropWhile_append, if_pos (by simp [hB]),
          List.dropWhile_cons_of_neg (by simp [hd1])]
      have hcondB : (isUpperAZ c && ((c :: cs).dropWhile isUpperAZ).headI == '-'
          && !((((c :: cs).dropWhile isUpperAZ).drop 1).takeWhile Char.isDigit).isEmpty) = false := by
        rw [hB]
        simp only [List.headI]
        rw [show ((default : Char) == '-') = false from by decide]
        simp
      rw [extractTicket_cons c cs, if_neg (by rw [hcondB]; decide)] at h ⊢
      rw [extractTicket_cons c (cs ++ d0 :: tail), hdwA]
      rw [if_neg]
      · exact ih h
      · simp only [List.headI]
        rw [show (d0 == '-') = false from by simp [hd2]]
        simp
    | cons x xs =>
      have hdwA : (c :: (cs ++ d0 :: tail)).dropWhile isUpperAZ = x :: (xs ++ d0 :: tail) := by
        rw [show (c :: (cs ++ d0 :: tail)) = (c :: cs) ++ (d0 :: tail) from rfl,
          List.dropWhile_append, if_neg (by simp [hB]), hB]
        rfl
      have hdig : (xs ++ d0 :: tail).takeWhile Char.isDigit = xs.takeWhile Char.isDigit := by
        rw [List.takeWhile_append]
        split
        · rename_i hlen
          have hxs : xs.takeWhile Char.isDigit = xs :=
            (List.takeWhile_prefix _).eq_of_length hlen
          rw [List.takeWhile_cons_of_neg (by simp [hd3]), hxs]
          simp
        · rfl
      have htw : (c :: (cs ++ d0 :: tail)).takeWhile isUpperAZ
          = (c :: cs).takeWhile isUpperAZ := by
        rw [show (c :: (cs ++ d0 :: tail)) = (c :: cs) ++ (d0 :: tail) from rfl,
          List.takeWhile_append, if_neg]
        intro hlen
        have htk := (List.takeWhile_prefix (l := c :: cs) isUpperAZ).eq_of_length hlen
        have hsplit := List.takeWhile_append_dropWhile isUpperAZ (c :: cs)
        rw [htk] at hsplit
        have hlen2 := congrArg List.length hsplit
        simp only [List.length_append] at hlen2
        have h0 : ((c :: cs).dropWhile isUpperAZ).length = 0 := by omega
        rw [List.length_eq_zero.mp h0] at hB
        cases hB
      rw [extractTicket_cons c (cs ++ d0 :: tail), extractTicket_cons c cs, hdwA, hB]
      simp only [List.drop_one, List.tail_cons, hdig, htw, List.headI]
      split
      · rfl
      · rename_i hcond
        rw [extractTicket_cons c cs, hB] at h
        simp only [List.drop_one, List.tail_cons, List.headI] at h
        rw [if_neg hcond] at h
        exact ih h

/-! ## Em-dash split lemmas -/

theorem splitEm_some :
    ∀ (b p q : List Char), splitEm b = some (p, q) →
      b = p ++ '—' :: q ∧ '—' ∉ p := by
  intro b
  induction b with
  | nil =>
    intro p q h
    rw [show splitEm ([] : List Char) = none from rfl] at h
    cases h
  | cons c cs ih =>
    intro p q h
    rw [splitEm] at h
    by_cases hc : c = '—'
    · rw [if_pos hc] at h
      simp only [Option.some.injEq, Prod.mk.injEq] at h
      obtain ⟨rfl, rfl⟩ := h
      subst hc
      simp
    · rw [if_neg hc] at h
      cases hs : splitEm cs with
      | none => rw [hs] at h; simp at h
      | some pr =>
        obtain ⟨p1, q1⟩ := pr
        rw [hs] at h
        have h2 : some ((c :: p1, q1) : List Char × List Char) = some (p, q) := h
        rw [Option.some.injEq, Prod.mk.injEq] at h2
        obtain ⟨h3, h4⟩ := h2
        obtain ⟨hb, hnp⟩ := ih p1 q1 (by rw [hs])
        subst h4
        subst h3
        constructor
        · rw [hb]
          rfl
        · intro hmem
          rcases List.mem_cons.mp hmem with he | he
          · exact hc he.symm
          · exact hnp he

theorem splitEm_none : ∀ b : List Char, splitEm b = none → '—' ∉ b := by
  intro b
  induction b with
  | nil => intro _ h; cases h
  | cons c cs ih =>
    intro h hmem
    rw [splitEm] at h
    by_cases hc : c = '—'
    · rw [if_pos hc] at h; cases h
    · rw [if_neg hc] at h
      cases hs : splitEm cs with
      | none =>
        rcases List.mem_cons.mp hmem with he | he
        · exact hc he.symm
        · exact ih hs he
      | some pr => rw [hs] at h; simp at h

/-! ## Projections of the per-bullet record -/

theorem mkP0Item_ticket (b : List Char) : (mkP0Item b).ticket = extractTicket b := by
  unfold mkP0Item
  cases h : splitEm b <;> simp

theorem mkP0Item_full_text (b : List Char) : (mkP0Item b).full_text = pyStrip b := by
  unfold mkP0Item
  cases h : splitEm b <;> simp

theorem mkP0Item_title (b : List Char) : (mkP0Item b).title = pyStrip (preEm b) := by
  unfold mkP0Item preEm
  cases h : splitEm b <;> simp

/-! ## Absent-section scanner lemmas -/

theorem scanRiskLevel_eq_none (label : List Char) :
    ∀ s : List Char, ciContainsB label s = false → scanRiskLevel label s = none := by
  intro s
  induction s with
  | nil => intro _; rfl
  | cons c cs ih =>
    intro h
    rw [ciContainsB] at h
    simp only [Bool.or_eq_false_iff] at h
    rw [scanRiskLevel, if_neg (by rw [h.1]; decide)]
    exact ih h.2

theorem scanZero_eq_none (label : List Char) :
    ∀ s : List Char, ciContainsB label s = false → scanZero label s = none := by
  intro s
  induction s with
  | nil => intro _; rfl
  | cons c cs ih =>
    intro h
    rw [ciContainsB] at h
    simp only [Bool.or_eq_false_iff] at h
    rw [scanZero, if_neg (by rw [h.1]; decide)]
    exact ih h.2

/-! ## Zero-risk capture lemma -/

theorem pyStrip_zeroGroup (after : List Char) :
    pyStrip (zeroGroup after) = pyStrip after := by
  unfold zeroGroup
  cases hdw : after.dropWhile pySpace with
  | nil =>
    have hall : ∀ x ∈ after, pySpace x = true := List.dropWhile_eq_nil_iff.mp hdw
    cases hl : after.getLast? with
    | none =>
      rw [List.getLast?_eq_none_iff.mp hl]
    | some ch =>
      have hch : pySpace ch = true := hall ch (List.mem_of_mem_getLast? hl)
      show pyStrip [ch] = pyStrip after
      unfold pyStrip
      rw [hdw, List.dropWhile_cons_of_pos hch]
      rfl
  | cons a as =>
    show pyStrip (a :: as) = pyStrip after
    rw [← hdw, pyStrip_dropWhile]

/-- Bullet counting over a well-formed span. -/
theorem findBullets_goodSpan (S : List Char) (h : goodBulletSpan S = true) :
    findBullets S = ((splitLines S).filter isBulletLine).map bulletCapture := by
  have hall := List.all_eq_true.mp h
  have h2 : ∀ l ∈ splitLines S, ∀ c ∈ l.drop 1, c ≠ '•' := by
    intro l hl c hc
    have := hall l hl
    simp only [Bool.and_eq_true] at this
    have := List.all_eq_true.mp this.1 c hc
    simpa using this
  have h3 : ∀ l ∈ splitLines S, isBulletLine l = true → bulletCapture l ≠ [] := by
    intro l hl hb
    have := hall l hl
    simp only [Bool.and_eq_true, Bool.or_eq_true, Bool.not_eq_true',
      List.isEmpty_iff] at this
    rcases this.2 with hfalse | hcap
    · rw [hb] at hfalse; cases hfalse
    · intro hnil
      rw [hnil] at hcap
      simp at hcap
  calc findBullets S
      = findBullets (joinLines (splitLines S)) := by rw [joinLines_splitLines]
    _ = ((splitLines S).filter isBulletLine).map bulletCapture :=
        findBullets_lines (splitLines S) (nl_not_mem_splitLines S) h2 h3

/-! ## Per-bullet title and description lemmas -/

theorem title_no_emdash (b : List Char) : '—' ∉ (mkP0Item b).title := by
  rw [mkP0Item_title]
  intro hmem
  have hpre : '—' ∈ preEm b := mem_of_mem_pyStrip _ _ hmem
  unfold preEm at hpre
  cases hs : splitEm b with
  | none =>
    rw [hs] at hpre
    exact splitEm_none b hs hpre
  | some pr =>
    rw [hs] at hpre
    exact (splitEm_some b pr.1 pr.2 (by rw [hs])).2 hpre

theorem emdash_full_text (b : List Char) :
    (mkP0Item b).description ≠ [] → '—' ∈ (mkP0Item b).full_text := by
  intro hd
  rw [mkP0Item_full_text]
  cases hs : splitEm b with
  | none =>
    exfalso
    apply hd
    unfold mkP0Item
    rw [hs]
  | some pr =>
    obtain ⟨hb, _⟩ := splitEm_some b pr.1 pr.2 (by rw [hs])
    apply mem_pyStrip_of_not_space
    · rw [hb]
      exact List.mem_append_right _ (List.mem_cons_self _ _)
    · decide

/-! # Claims -/

/-- Claim C1 (counterexample).  The patch does not produce byte-identical
output on both applications — on realistic metadata it produces no output
at all: the version-line template `\1{version}\2{week_of}` with version
`4.33.0` parses as the group reference `\14`, which exceeds the pattern's
two groups, so CPython raises `re.error: invalid group reference` before
any match is attempted (first conjunct; the counter templates
`\1{count}\2` raise the same way for every single-digit count).  And even
on metadata whose templates parse — digit-free version and date, counts
of `12` (octal-headed) — the claim fails because it fixes only the
`Report` and metadata while the footer substitution renders
`datetime.now()`: two applications at different ambient times differ
(second conjunct). -/
theorem claim_C1_counterexample :
    weekly_automation.update_main_dashboard emptyReport "4.33.0".data
        "February 03, 2026".data "2026-02-03".data "T".data docFooterOnly = none
    ∧ weekly_automation.update_main_dashboard rpt12 "vX".data "W".data
        "today".data "A".data docFooterOnly
      ≠ weekly_automation.update_main_dashboard rpt12 "vX".data "W".data
        "today".data "B".data docFooterOnly := by
  constructor
  · decide
  · decide

/-- Claim C1 (amended).  With the ambient current-time rendering also held
fixed across the two applications, the full substitution sequences of
`update_main_dashboard` and `create_report_page` are pure: the two
applications to the same pristine buffers yield the same outcome — the
same output bytes, or the same raised template-parse `re.error`. -/
theorem claim_C1_amended (data : Report)
    (version week_of report_date doc tpl t1 t2 : List Char) (ht : t1 = t2) :
    weekly_automation.update_main_dashboard data version week_of report_date t1 doc
      = weekly_automation.update_main_dashboard data version week_of report_date t2 doc
    ∧ weekly_automation.create_report_page data version week_of t1 tpl
      = weekly_automation.create_report_page data version week_of t2 tpl := by
  subst ht
  exact ⟨rfl, rfl⟩

theorem claim_C1_witness :
    weekly_automation.update_main_dashboard emptyReport "4.33.0".data "W".data
        "2026-01-01".data "T".data docFooterOnly
      = weekly_automation.update_main_dashboard emptyReport "4.33.0".data "W".data
        "2026-01-01".data "T".data docFooterOnly
    ∧ weekly_automation.create_report_page emptyReport "4.33.0".data "W".data
        "T".data docFooterOnly
      = weekly_automation.create_report_page emptyReport "4.33.0".data "W".data
        "T".data docFooterOnly :=
  claim_C1_amended emptyReport "4.33.0".data "W".data "2026-01-01".data
    docFooterOnly docFooterOnly "T".data "T".data rfl

/-- Claim C2 (counterexample).  The zero-risk `re.sub` of
`create_report_page` passes no `count`, so it is global: on a buffer with
two zero-risk anchors both are replaced, not at most the first — the
first conjunct computes the actual output, the second states it differs
from the at-most-first-match output the claim demands.  (The metadata
here is digit-free so every replacement template of the page parses.) -/
theorem claim_C2_counterexample :
    weekly_automation.create_report_page rptZero "vX".data "W".data "T".data
        docTwoLocalizations
      = some "a ZR b ZR c".data
    ∧ weekly_automation.create_report_page rptZero "vX".data "W".data "T".data
        docTwoLocalizations
      ≠ some "a ZR b Localizations (string updates only) y Smart Review c".data := by
  constructor
  · decide
  · decide

/-- Claim C2 (amended).  Every substitution that the source passes
`count=1` is driven by `subFirst`, and `subFirst` is single-shot: when the
pattern first matches after a match-free prefix, exactly that match is
replaced and the whole remainder is kept verbatim, even if it matches
again.  The footer-timestamp substitutions (both patchers) and the
zero-risk replacement in `create_report_page` pass no `count` and are
global. -/
theorem claim_C2_amended (t : TrySub) :
    ∀ (p rest repl nrest : List Char),
      (∀ i, i < p.length → t (List.drop i p ++ rest) = none) →
      t rest = some (repl, nrest) →
      subFirst t (p ++ rest) = p ++ (repl ++ nrest) := by
  intro p
  induction p with
  | nil =>
    intro rest repl nrest _ hmatch
    cases rest with
    | nil =>
      show subFirst t [] = _
      rw [subFirst, hmatch]
      rfl
    | cons c cs =>
      show subFirst t (c :: cs) = _
      rw [subFirst, hmatch]
      rfl
  | cons c cs ih =>
    intro rest repl nrest hnone hmatch
    rw [List.cons_append, subFirst,
      show t (c :: (cs ++ rest)) = none from by simpa using hnone 0 (by simp)]
    have := ih rest repl nrest
      (fun i hi => by
        have := hnone (i + 1) (by simpa using Nat.succ_lt_succ hi)
        simpa using this)
      hmatch
    rw [this]
    rfl

theorem claim_C2_witness :
    subFirst (tryReportLink "<a href=\"reports/2026-02-02.html\" class=\"view-full-report\">".data)
        ("xy".data ++ "<a href=\"reports/2026-01-26.html\" class=\"view-full-report\">tail".data)
      = "xy".data ++ ("<a href=\"reports/2026-02-02.html\" class=\"view-full-report\">".data
          ++ "tail".data) :=
  claim_C2_amended
    (tryReportLink "<a href=\"reports/2026-02-02.html\" class=\"view-full-report\">".data)
    "xy".data
    "<a href=\"reports/2026-01-26.html\" class=\"view-full-report\">tail".data
    "<a href=\"reports/2026-02-02.html\" class=\"view-full-report\">".data
    "tail".data (by decide) (by decide)

/-- Claim C3 (counterexample).  The zero-risk regex carries `re.DOTALL`, so
its greedy `(.+)` runs to the end of the input: with a second bullet after
the first, `zeroRisk` contains both lines, not only the first bullet
line. -/
theorem claim_C3_counterexample :
    (weekly_automation.parse_claude_response "No Code Changes\n• first\n• second".data).zeroRisk
      = "first\n• second".data
    ∧ "first\n• second".data ≠ "first".data := by
  constructor
  · decide
  · decide

/-- Claim C3 (amended).  When the input starts with the zero-risk header
directly followed by a newline and a bullet marker, `zeroRisk` is the
stripped text from after the marker to the end of the input — the whole
remaining text, not only the first line. -/
theorem claim_C3_amended (rest : List Char) :
    (weekly_automation.parse_claude_response ("No Code Changes\n•".data ++ rest)).zeroRisk
      = pyStrip rest := by
  cases rest with
  | nil => decide
  | cons d r =>
    simp only [weekly_automation.parse_claude_response]
    rw [show scanZero weekly_automation.zero_header ("No Code Changes\n•".data ++ d :: r)
        = some (d :: r) from rfl]
    exact pyStrip_zeroGroup (d :: r)

/-- Claim C4 (counterexample).  In `weekly_automation.py` the top-3
substitution (lines 247–264) is not guarded by emptiness of `p0Items`:
with an empty report its template renders to group 1 followed by a blank
continuation (first conjunct: `refPieces` on the empty stripped fragment),
and running that operation on a buffer holding the anchor with one
existing critical block deletes the block — the region is not left
byte-identical (the enclosing function additionally raises at the counter
templates on such a report, claim C1). -/
theorem claim_C4_counterexample :
    refPieces 1 (pyStrip (top3Html emptyReport.p0Items) ++ "\n                ".data)
      = some (true, "\n                ".data)
    ∧ subFirst (tryTop3 true "\n                ".data) docTop3Only
      = "<div style=\"margin-bottom: 8px;\">Top</div> \n                END".data
    ∧ subFirst (tryTop3 true "\n                ".data) docTop3Only ≠ docTop3Only := by
  refine ⟨?_, ?_, ?_⟩
  · decide
  · decide
  · decide

/-- Claim C4 (amended).  In `weekly_automation_with_fetch.py` the top-3
substitution is guarded by `if data['p0Items']:`: with empty `p0Items` and
`otherChanges` the dashboard patch is exactly the remaining substitutions
— the top-3 anchor region is left to them untouched — while both counters
render `0`. -/
theorem claim_C4_amended (data : Report)
    (version week_of report_date nowLong nowShort doc : List Char)
    (hp0 : data.p0Items = []) (hoc : data.otherChanges = []) :
    weekly_automation_with_fetch.update_main_dashboard data version week_of
        report_date nowLong nowShort doc
      = subFirst (weekly_automation_with_fetch.tryRcTimestamp nowShort)
          (subAll (tryLastUpdated ("<span class=\"last-updated\">Last Updated:</span> ".data ++ nowLong))
            (subFirst (tryReportLink ("<a href=\"reports/".data ++ report_date
                ++ ".html\" class=\"view-full-report\">".data))
              (subFirst (tryStatCountFetch "#cb912f".data "Medium Risk".data "0".data)
                (subFirst (tryStatCountFetch "#d44c47".data "P0 Items".data "0".data)
                  (subFirst (tryVersionLine ("<strong>Android RC ".data ++ version
                      ++ "</strong> • Week of ".data ++ week_of))
                    (subFirst (tryRiskBadge ("<span class=\"risk-level ".data
                      ++ riskClassOf data.riskLevel ++ "\">".data ++ data.riskLevel
                      ++ "</span>".data)) doc))))))
    ∧ natStr data.p0Items.length = "0".data
    ∧ natStr data.otherChanges.length = "0".data := by
  refine ⟨?_, ?_, ?_⟩
  · simp only [weekly_automation_with_fetch.update_main_dashboard, hp0, hoc]
    rfl
  · rw [hp0]; decide
  · rw [hoc]; decide

theorem claim_C4_witness :
    weekly_automation_with_fetch.update_main_dashboard emptyReport "4.33.0".data
        "W".data "2026-01-01".data "T".data "t".data docTop3Only
      = subFirst (weekly_automation_with_fetch.tryRcTimestamp "t".data)
          (subAll (tryLastUpdated ("<span class=\"last-updated\">Last Updated:</span> ".data ++ "T".data))
            (subFirst (tryReportLink ("<a href=\"reports/".data ++ "2026-01-01".data
                ++ ".html\" class=\"view-full-report\">".data))
              (subFirst (tryStatCountFetch "#cb912f".data "Medium Risk".data "0".data)
                (subFirst (tryStatCountFetch "#d44c47".data "P0 Items".data "0".data)
                  (subFirst (tryVersionLine ("<strong>Android RC ".data ++ "4.33.0".data
                      ++ "</strong> • Week of ".data ++ "W".data))
                    (subFirst (tryRiskBadge ("<span class=\"risk-level ".data
                      ++ riskClassOf emptyReport.riskLevel ++ "\">".data ++ emptyReport.riskLevel
                      ++ "</span>".data)) docTop3Only)))))) :=
  (claim_C4_amended emptyReport "4.33.0".data "W".data "2026-01-01".data
    "T".data "t".data docTop3Only rfl rfl).1

/-- Claim C5 (counterexample).  An input with all four sections in order
whose P0 span contains a mid-line bullet marker: the scan produces two
items, yet the span has a single bullet line. -/
theorem claim_C5_counterexample :
    weekly_automation.p0_span reportMidlineBullet = some "• A\nmid • B\n".data
    ∧ (weekly_automation.parse_claude_response reportMidlineBullet).p0Items.length = 2
    ∧ ((splitLines "• A\nmid • B\n".data).filter isBulletLine).length = 1 := by
  refine ⟨?_, ?_, ?_⟩ <;> decide

/-- Claim C5 (amended).  For every input whose extracted P0 span is
well-formed — every bullet marker starts a line and every bullet line has
non-whitespace text after its marker — `p0Items` has exactly one item per
bullet line of the span, built from that line's text, in line order; in
particular their counts agree. -/
theorem claim_C5_amended (full S : List Char)
    (hspan : weekly_automation.p0_span full = some S)
    (hgood : goodBulletSpan S = true) :
    (weekly_automation.parse_claude_response full).p0Items
      = (((splitLines S).filter isBulletLine).map bulletCapture).map mkP0Item
    ∧ (weekly_automation.parse_claude_response full).p0Items.length
      = ((splitLines S).filter isBulletLine).length := by
  have hp : (weekly_automation.parse_claude_response full).p0Items
      = (findBullets S).map mkP0Item := by
    simp only [weekly_automation.parse_claude_response, weekly_automation.bulletsOf, hspan]
  rw [hp, findBullets_goodSpan S hgood]
  exact ⟨rfl, by simp⟩

theorem claim_C5_witness :
    weekly_automation.p0_span reportGoodP0
        = some "• ABC-12 — first item\n• second item\n".data
    ∧ goodBulletSpan "• ABC-12 — first item\n• second item\n".data = true
    ∧ (weekly_automation.parse_claude_response reportGoodP0).p0Items
        = (((splitLines "• ABC-12 — first item\n• second item\n".data).filter
            isBulletLine).map bulletCapture).map mkP0Item :=
  ⟨by decide, by decide,
    (claim_C5_amended reportGoodP0 "• ABC-12 — first item\n• second item\n".data
      (by decide) (by decide)).1⟩

/-- Claim C6 (confirmed).  Parsing the P0 bullet
`VOICE-827 — Fixed crash on login` yields exactly the stated fields, with
the ticket duplicated in `title` and `full_text`. -/
theorem claim_C6_ticket_fields :
    (weekly_automation.parse_claude_response
      "Overall Release Risk Level: LOW\n• s\nP0 — x\n• VOICE-827 — Fixed crash on login\n".data).p0Items
    = [{ ticket := "VOICE-827".data, title := "VOICE-827".data,
         description := "Fixed crash on login".data,
         full_text := "VOICE-827 — Fixed crash on login".data }] := by
  decide

/-- Claim C7 (confirmed).  The parser is a total function on every input
(it is defined as one), and absent sections degrade to defaults: without
any occurrence of the risk label the risk level is `MEDIUM`, and without
any occurrence of the zero-risk header the zero-risk text is empty. -/
theorem claim_C7_defaults (s : List Char) :
    (ciContainsB weekly_automation.risk_label s = false →
      (weekly_automation.parse_claude_response s).riskLevel = "MEDIUM".data)
    ∧ (ciContainsB weekly_automation.zero_header s = false →
      (weekly_automation.parse_claude_response s).zeroRisk = []) := by
  constructor
  · intro hr
    simp only [weekly_automation.parse_claude_response]
    rw [scanRiskLevel_eq_none _ s hr]
  · intro hz
    simp only [weekly_automation.parse_claude_response]
    rw [scanZero_eq_none _ s hz]

theorem claim_C7_witness :
    (weekly_automation.parse_claude_response "hello".data).riskLevel = "MEDIUM".data
    ∧ (weekly_automation.parse_claude_response "hello".data).zeroRisk = [] :=
  ⟨(claim_C7_defaults "hello".data).1 (by decide),
   (claim_C7_defaults "hello".data).2 (by decide)⟩

/-- Claim C8 (confirmed).  Ticket extraction removes nothing: whenever the
bullet contains a match of the ticket shape, the extracted ticket is a
contiguous substring of `full_text`; and when the first match lies in the
part before the first em-dash, it is also a contiguous substring of
`title`. -/
theorem claim_C8_ticket_preserved (bullet : List Char) :
    (extractTicket bullet ≠ [] →
      (mkP0Item bullet).ticket <:+: (mkP0Item bullet).full_text)
    ∧ (extractTicket (preEm bullet) ≠ [] →
      (mkP0Item bullet).ticket <:+: (mkP0Item bullet).title) := by
  constructor
  · intro h
    rw [mkP0Item_ticket, mkP0Item_full_text]
    exact infix_pyStrip _ _ h (fun c hc => extractTicket_not_space bullet c hc)
      (extractTicket_substring bullet h)
  · intro h
    rw [mkP0Item_ticket, mkP0Item_title]
    cases hs : splitEm bullet with
    | none =>
      have hpre : preEm bullet = bullet := by unfold preEm; rw [hs]
      rw [hpre] at h ⊢
      exact infix_pyStrip _ _ h (fun c hc => extractTicket_not_space bullet c hc)
        (extractTicket_substring bullet h)
    | some pr =>
      have hpre : preEm bullet = pr.1 := by unfold preEm; rw [hs]
      rw [hpre] at h ⊢
      obtain ⟨hb, _⟩ := splitEm_some bullet pr.1 pr.2 (by rw [hs])
      have hstab : extractTicket bullet = extractTicket pr.1 := by
        rw [hb]
        exact extractTicket_append_stable '—' pr.2 (by decide) (by decide) (by decide) pr.1 h
      rw [hstab]
      exact infix_pyStrip _ _ h (fun c hc => extractTicket_not_space pr.1 c hc)
        (extractTicket_substring pr.1 h)

theorem claim_C8_witness :
    (extractTicket "QA-5 — fix".data ≠ []
      ∧ (mkP0Item "QA-5 — fix".data).ticket <:+: (mkP0Item "QA-5 — fix".data).full_text)
    ∧ (extractTicket (preEm "QA-5 — fix".data) ≠ []
      ∧ (mkP0Item "QA-5 — fix".data).ticket <:+: (mkP0Item "QA-5 — fix".data).title) :=
  ⟨⟨by decide, (claim_C8_ticket_preserved "QA-5 — fix".data).1 (by decide)⟩,
   ⟨by decide, (claim_C8_ticket_preserved "QA-5 — fix".data).2 (by decide)⟩⟩

/-- Claim C9 (confirmed).  The parser of `weekly_automation.py` and the
parser of `weekly_automation_manual.py` repeat the same five regular
expressions character for character; their embeddings agree on every
input, field by field. -/
theorem claim_C9_parsers_equal (s : List Char) :
    weekly_automation.parse_claude_response s
      = weekly_automation_manual.parse_claude_response s := rfl

/-- Claim C10 (confirmed).  For every item produced by the parser: the
title never contains the em-dash separator, and a non-empty description
forces an em-dash in `full_text`. -/
theorem claim_C10_title_separator (s : List Char) (it : P0Item)
    (hit : it ∈ (weekly_automation.parse_claude_response s).p0Items) :
    '—' ∉ it.title ∧ (it.description ≠ [] → '—' ∈ it.full_text) := by
  have hmap : (weekly_automation.parse_claude_response s).p0Items
      = (weekly_automation.bulletsOf (weekly_automation.p0_span s)).map mkP0Item := rfl
  rw [hmap] at hit
  obtain ⟨b, _, rfl⟩ := List.mem_map.mp hit
  exact ⟨title_no_emdash b, emdash_full_text b⟩

theorem claim_C10_witness :
    '—' ∉ (mkP0Item "VOICE-1 — done".data).title
    ∧ ((mkP0Item "VOICE-1 — done".data).description ≠ [] →
        '—' ∈ (mkP0Item "VOICE-1 — done".data).full_text) :=
  claim_C10_title_separator "P0 — t\n• VOICE-1 — done".data
    (mkP0Item "VOICE-1 — done".data) (by decide)
